import Mathlib

/-!
Verification development for the `kirbot` Telegram CPL-calculator bot
(`src/bot.js`; `src/unnamed/part_000` is an earlier revision of the same
file whose `calcCPL`, `/calc`, `/lead` and wizard logic are identical,
except that its message handler has no main-menu button switch).

Embedding conventions:
* JavaScript numbers are modelled by `JSNum`: `NaN`, the two infinities,
  and finite doubles.  Finite doubles are idealised as exact rationals
  (binary rounding and overflow of IEEE doubles are out of scope of this
  embedding; all claim-relevant computations are small and exact).
* `-0` is identified with `0`; the only place signed zero could matter in
  this program is a division whose divisor is `-0`, and the divisors
  `100`, `1 + trash/100` and `1 + roi/100` are never `-0` here.
* The chat transport is out of scope: an outbound `bot.sendMessage` call
  is modelled by a `BotOut` value naming the message that the source
  sends at that point.
* The process-wide `sessions` `Map` is modelled as an explicit
  association list passed through the handlers.
-/

-- The library marks the arithmetic of `Rat` irreducible, which stops the
-- kernel evaluation used by `decide` on concrete inputs; restore the
-- default reducibility (this changes nothing about the functions).
set_option allowUnsafeReducibility true in
attribute [semireducible] Rat.mul Rat.add Rat.sub Rat.inv Rat.ofScientific

/-- Model of a JavaScript number: `NaN`, `Infinity`, `-Infinity`, or a
finite value (idealised as an exact rational). -/
inductive JSNum where
  | nan
  | inf
  | ninf
  | val (q : ℚ)
deriving DecidableEq, Repr

/-- JavaScript `+` on numbers (IEEE special-value rules; finite values
exact). -/
def jsAdd : JSNum → JSNum → JSNum
  | .nan, _ => .nan
  | _, .nan => .nan
  | .inf, .ninf => .nan
  | .ninf, .inf => .nan
  | .inf, _ => .inf
  | _, .inf => .inf
  | .ninf, _ => .ninf
  | _, .ninf => .ninf
  | .val a, .val b => .val (a + b)

/-- JavaScript `*` on numbers (IEEE special-value rules; finite values
exact). -/
def jsMul : JSNum → JSNum → JSNum
  | .nan, _ => .nan
  | _, .nan => .nan
  | .inf, .inf => .inf
  | .inf, .ninf => .ninf
  | .ninf, .inf => .ninf
  | .ninf, .ninf => .inf
  | .inf, .val b => if b = 0 then .nan else if 0 < b then .inf else .ninf
  | .val a, .inf => if a = 0 then .nan else if 0 < a then .inf else .ninf
  | .ninf, .val b => if b = 0 then .nan else if 0 < b then .ninf else .inf
  | .val a, .ninf => if a = 0 then .nan else if 0 < a then .ninf else .inf
  | .val a, .val b => .val (a * b)

/-- JavaScript `/` on numbers (IEEE special-value rules; finite values
exact; division of a nonzero finite value by zero yields a signed
infinity, `0/0` yields `NaN`). -/
def jsDiv : JSNum → JSNum → JSNum
  | .nan, _ => .nan
  | _, .nan => .nan
  | .inf, .inf => .nan
  | .inf, .ninf => .nan
  | .ninf, .inf => .nan
  | .ninf, .ninf => .nan
  | .inf, .val b => if 0 ≤ b then .inf else .ninf
  | .ninf, .val b => if 0 ≤ b then .ninf else .inf
  | .val _, .inf => .val 0
  | .val _, .ninf => .val 0
  | .val a, .val b =>
    if b = 0 then (if a = 0 then .nan else if 0 < a then .inf else .ninf)
    else .val (a / b)

/-- Rounding of an exact rational to 4 decimal places the way
`Number.prototype.toFixed(4)` rounds: to the nearest multiple of
`1/10000`, ties away from zero (the ECMAScript algorithm negates a
negative argument first and breaks ties upward). -/
def round4 (q : ℚ) : ℚ :=
  if q < 0 then -((round (-q * 10000) : ℚ) / 10000)
  else (round (q * 10000) : ℚ) / 10000

/-- Model of `+x.toFixed(4)` from `calcCPL`: `NaN` prints as `"NaN"` and
converts back to `NaN`; infinities print as `"±Infinity"` and convert
back to themselves; a finite value is rounded to 4 decimals. -/
def jsToFixed4 : JSNum → JSNum
  | .nan => .nan
  | .inf => .inf
  | .ninf => .ninf
  | .val q => .val (round4 q)

/-- Embedding of `calcCPL({ payout, approve, trash = 0, roi = 0 })`
(src/bot.js lines 71–83).  An absent (`undefined`) destructured field
without a default coerces to `NaN` in the arithmetic; `trash` and `roi`
default to `0` when absent. -/
def calcCPL (payout approve trash roi : Option JSNum) : JSNum × JSNum :=
  let p := payout.getD JSNum.nan
  let ap := approve.getD JSNum.nan
  let tr := trash.getD (JSNum.val 0)
  let ro := roi.getD (JSNum.val 0)
  let A := jsDiv ap (JSNum.val 100)
  let T := jsDiv tr (JSNum.val 100)
  let R := jsDiv ro (JSNum.val 100)
  let breakeven := jsDiv (jsMul p A) (jsAdd (JSNum.val 1) T)
  let leadPrice := jsDiv breakeven (jsAdd (JSNum.val 1) R)
  (jsToFixed4 breakeven, jsToFixed4 leadPrice)

/-- Whitespace for the purposes of JavaScript string trimming and of the
`/\s+/` token splitter: space, tab, line and page breaks, and NBSP (the
less common Unicode space code points are not used by any input this
program sees). -/
def isJsSpace (c : Char) : Bool :=
  c == ' ' || c == '\t' || c == '\n' || c == '\r' || c == '\x0b' ||
    c == '\x0c' || c == '\xa0'

/-- JavaScript `String.prototype.trim`. -/
def jsTrim (s : String) : String :=
  String.mk (((s.toList.dropWhile isJsSpace).reverse.dropWhile isJsSpace).reverse)

/-- Reads a maximal run of decimal digits: accumulated value, number of
digits read, rest of the input. -/
def takeDigits (acc n : ℕ) : List Char → ℕ × ℕ × List Char
  | [] => (acc, n, [])
  | c :: cs =>
    if c.isDigit then takeDigits (10 * acc + (c.toNat - 48)) (n + 1) cs
    else (acc, n, c :: cs)

/-- Reads the digits of an exponent part and requires them to end the
input, scaling the mantissa `m` by the signed power of ten. -/
def parseExpDigits (m : ℚ) (sgn : ℤ) (cs : List Char) : Option ℚ :=
  let (e, ne, rest) := takeDigits 0 0 cs
  if ne = 0 ∨ rest ≠ [] then none
  else some (m * (10 : ℚ) ^ (sgn * (e : ℤ)))

/-- Reads an optional ECMAScript `ExponentPart` after the mantissa `m`;
anything else trailing makes the literal invalid. -/
def parseExpPart (m : ℚ) : List Char → Option ℚ
  | [] => some m
  | c :: cs =>
    if c = 'e' ∨ c = 'E' then
      match cs with
      | '+' :: cs2 => parseExpDigits m 1 cs2
      | '-' :: cs2 => parseExpDigits m (-1) cs2
      | _ => parseExpDigits m 1 cs
    else none

/-- Reads an unsigned ECMAScript `StrUnsignedDecimalLiteral` other than
`Infinity`: digits, an optional fraction, an optional exponent. -/
def parseDecimalBody (cs : List Char) : Option ℚ :=
  let (ip, ni, rest) := takeDigits 0 0 cs
  match rest with
  | '.' :: rest2 =>
    let (fp, nf, rest3) := takeDigits 0 0 rest2
    if ni = 0 ∧ nf = 0 then none
    else parseExpPart ((ip : ℚ) + (fp : ℚ) / (10 : ℚ) ^ nf) rest3
  | _ => if ni = 0 then none else parseExpPart (ip : ℚ) rest

/-- Value of a hexadecimal digit, if any. -/
def hexVal (c : Char) : Option ℕ :=
  if c.isDigit then some (c.toNat - 48)
  else if 'a' ≤ c ∧ c ≤ 'f' then some (c.toNat - 87)
  else if 'A' ≤ c ∧ c ≤ 'F' then some (c.toNat - 55)
  else none

/-- Value of a digit in the given radix, if valid. -/
def radixDigit (radix : ℕ) (c : Char) : Option ℕ :=
  match hexVal c with
  | some v => if v < radix then some v else none
  | none => none

/-- Reads a maximal run of digits in the given radix. -/
def takeRadixDigits (radix acc n : ℕ) : List Char → ℕ × ℕ × List Char
  | [] => (acc, n, [])
  | c :: cs =>
    match radixDigit radix c with
    | some v => takeRadixDigits radix (radix * acc + v) (n + 1) cs
    | none => (acc, n, c :: cs)

/-- Reads an ECMAScript `NonDecimalIntegerLiteral` (`0x…`, `0o…`,
`0b…`), which must fill the whole input and admits no sign. -/
def parseNonDecimal : List Char → Option ℕ
  | '0' :: c :: cs =>
    let radix : Option ℕ :=
      if c = 'x' ∨ c = 'X' then some 16
      else if c = 'o' ∨ c = 'O' then some 8
      else if c = 'b' ∨ c = 'B' then some 2
      else none
    match radix with
    | some r =>
      let (v, n, rest) := takeRadixDigits r 0 0 cs
      if n = 0 ∨ rest ≠ [] then none else some v
    | none => none
  | _ => none

/-- Model of JavaScript `Number(string)` (ECMAScript `StringToNumber`):
the input is trimmed; an empty remainder is `0`; a non-decimal integer
literal, or an optionally signed `Infinity` or decimal literal, gives
its value; anything else is `NaN`.  Finite values are exact rationals
(see the header note). -/
def jsStrToNumber (s : String) : JSNum :=
  let cs := ((s.toList.dropWhile isJsSpace).reverse.dropWhile isJsSpace).reverse
  match parseNonDecimal cs with
  | some n => JSNum.val n
  | none =>
    match cs with
    | [] => JSNum.val 0
    | _ =>
      let signedBody : ℚ × List Char :=
        match cs with
        | '+' :: r => (1, r)
        | '-' :: r => (-1, r)
        | r => (1, r)
      if signedBody.2 = "Infinity".toList then
        if signedBody.1 = 1 then JSNum.inf else JSNum.ninf
      else
        match parseDecimalBody signedBody.2 with
        | some q => JSNum.val (signedBody.1 * q)
        | none => JSNum.nan

/-- Model of the `msg.text.replace` call that turns the first comma into
a dot: JavaScript `replace` with a string pattern replaces only the
first occurrence. -/
def replaceFirstCommaList : List Char → List Char
  | [] => []
  | c :: cs => if c = ',' then '.' :: cs else c :: replaceFirstCommaList cs

/-- String version of `replaceFirstCommaList`. -/
def replaceFirstComma (s : String) : String :=
  String.mk (replaceFirstCommaList s.toList)

/-- Splits a list of characters at every single whitespace character
(empty fields appear between adjacent whitespace characters). -/
def splitOnWs : List Char → List (List Char)
  | [] => [[]]
  | c :: cs =>
    if isJsSpace c then [] :: splitOnWs cs
    else
      match splitOnWs cs with
      | [] => [[c]]
      | t :: ts => (c :: t) :: ts

/-- Model of `s.split(/\s+/)` for a string `s` that has already been
trimmed: the empty string yields `[""]`, and otherwise the split on
whitespace runs is the single-whitespace split with empty fields
dropped. -/
def jsSplitTokens (s : String) : List String :=
  if s = "" then [""]
  else ((splitOnWs s.toList).filter (fun l => !l.isEmpty)).map String.mk

/-- Model of one outbound `bot.sendMessage` call.  Each constructor
names the message the source sends at the corresponding point; the two
result messages are modelled by their numeric payloads because the exact
number-to-string formatting of the transport is out of scope. -/
inductive BotOut where
  /-- Message that at least 3 numbers are needed (`/calc` handler). -/
  | needThreeNumbers
  /-- Message that all arguments must be numbers (`/calc` handler). -/
  | allMustBeNumbers
  /-- The `/calc` result message, carrying the `roi` argument it echoes
  and the two computed values. -/
  | calcResult (roi breakeven leadPrice : JSNum)
  /-- Prompt for the payout (`/lead` handler). -/
  | askPayout
  /-- Prompt for the approve rate (wizard `payout` step). -/
  | askApprove
  /-- Prompt for the trash rate (wizard `approve` step). -/
  | askTrash
  /-- Prompt for the ROI (wizard `trash` step). -/
  | askRoi
  /-- The resend-a-number message of the wizard parse guard. -/
  | sendNumberPlease
  /-- The wizard completion message, carrying the ROI value it echoes
  and the two computed values. -/
  | wizardResult (roiEntered breakeven leadPrice : JSNum)
  /-- The invalid-session-state message of the wizard default branch. -/
  | stateError
  /-- Reply to the calculator main-menu button. -/
  | menuCalcHelp
  /-- Reply to the channel main-menu button. -/
  | menuChannel
  /-- Reply to the two manager/advertising main-menu buttons. -/
  | menuManager
deriving DecidableEq, Repr

/-- Embedding of the `/calc` handler (src/bot.js lines 101–118); the
argument is the regex capture after `"/calc "`. -/
def calcCommand (argStr : String) : List BotOut :=
  let args := (jsSplitTokens (jsTrim argStr)).map jsStrToNumber
  if args.length < 3 then [BotOut.needThreeNumbers]
  else
    let payout := (args.get? 0).getD JSNum.nan
    let approve := (args.get? 1).getD JSNum.nan
    let trash := (args.get? 2).getD JSNum.nan
    let roi := (args.get? 3).getD (JSNum.val 0)
    if payout = JSNum.nan ∨ approve = JSNum.nan ∨ trash = JSNum.nan ∨
        roi = JSNum.nan then
      [BotOut.allMustBeNumbers]
    else
      let r := calcCPL (some payout) (some approve) (some trash) (some roi)
      [BotOut.calcResult roi r.1 r.2]

/-- The `data` accumulator of a wizard session: the fields collected so
far (`{}` at session start). -/
structure SessData where
  payout : Option JSNum := none
  approve : Option JSNum := none
  trash : Option JSNum := none
  roi : Option JSNum := none
deriving DecidableEq, Repr

/-- A wizard session: `{ step, data }` as stored in the `sessions`
map.  The step is a string tag exactly as in the source. -/
structure Session where
  step : String
  data : SessData
deriving DecidableEq, Repr

/-- The `sessions` `Map`, keyed by chat id, modelled as an association
list (keys are unique in every store this program builds). -/
abbrev Store := List (ℤ × Session)

/-- Lookup, modelling `sessions.get(c)`. -/
def mapGet : Store → ℤ → Option Session
  | [], _ => none
  | (c', s) :: rest, c => if c' = c then some s else mapGet rest c

/-- Insertion, modelling `sessions.set(c, s)`: replaces the entry in
place, or appends. -/
def mapSet : Store → ℤ → Session → Store
  | [], c, s => [(c, s)]
  | (c', s') :: rest, c, s =>
    if c' = c then (c, s) :: rest else (c', s') :: mapSet rest c s

/-- Removal, modelling `sessions.delete(c)` (on the key-unique stores
this program builds,
removing every entry with key `c` is removing the one entry). -/
def mapDelete : Store → ℤ → Store
  | [], _ => []
  | (c', s') :: rest, c =>
    if c' = c then mapDelete rest c else (c', s') :: mapDelete rest c

/-- The effect of one inbound message on the session store: keep it,
write one session under the message's chat id, or delete that id. -/
inductive StoreAct where
  | keep
  | set (s : Session)
  | del
deriving DecidableEq, Repr

/-- Applies a `StoreAct` at a chat id. -/
def applyAct (m : Store) (c : ℤ) : StoreAct → Store
  | .keep => m
  | .set s => mapSet m c s
  | .del => mapDelete m c

/-- Model of the `startsWith` test for a leading slash. -/
def startsWithSlash (s : String) : Bool :=
  match s.toList with
  | c :: _ => c = '/'
  | [] => false

/-- The four button labels of `MAIN_MENU` (src/bot.js lines 26–38). -/
def mainMenuLabels : List String :=
  ["Калькулятор арбитражника", "Наш тг-канал",
   "Связаться с менеджером/задать вопрос", "Реклама в Telegram Ads"]

/-- The wizard part of the message handler (src/bot.js lines 169–208):
parse the reply, re-prompt on `NaN`, otherwise switch on the session's
step string, storing the value and advancing, completing with `calcCPL`
and deleting the session at the `roi` step, or deleting the session in
the defensive default branch. -/
def wizardStep (s : Session) (text : String) : StoreAct × List BotOut :=
  let val := jsStrToNumber (replaceFirstComma text)
  if val = JSNum.nan then (.keep, [.sendNumberPlease])
  else if s.step = "payout" then
    (.set ⟨"approve", { s.data with payout := some val }⟩, [.askApprove])
  else if s.step = "approve" then
    (.set ⟨"trash", { s.data with approve := some val }⟩, [.askTrash])
  else if s.step = "trash" then
    (.set ⟨"roi", { s.data with trash := some val }⟩, [.askRoi])
  else if s.step = "roi" then
    let d := { s.data with roi := some val }
    let r := calcCPL d.payout d.approve d.trash d.roi
    (.del, [.wizardResult val r.1 r.2])
  else
    (.del, [.stateError])

/-- The routing part of the message handler (src/bot.js
lines 135–208), as a function of the session looked up for the chat:
ignore empty texts and commands, answer the four menu buttons, ignore
free text without a session, and otherwise run the wizard step. -/
def routeText (sopt : Option Session) (text : String) : StoreAct × List BotOut :=
  if text = "" ∨ startsWithSlash text = true then (.keep, [])
  else if text = "Калькулятор арбитражника" then (.keep, [.menuCalcHelp])
  else if text = "Наш тг-канал" then (.keep, [.menuChannel])
  else if text = "Связаться с менеджером/задать вопрос" ∨
      text = "Реклама в Telegram Ads" then (.keep, [.menuManager])
  else
    match sopt with
    | none => (.keep, [])
    | some s => wizardStep s text

/-- Embedding of the full message handler: the store after
the message and the messages sent.  An absent `msg.text` is modelled by
the empty string (both fail the source's `!msg.text ||` guard the same
way). -/
def handleMessage (m : Store) (c : ℤ) (text : String) : Store × List BotOut :=
  let r := routeText (mapGet m c) text
  (applyAct m c r.1, r.2)

/-- Embedding of the `/lead` handler (src/bot.js lines 124–129):
a fresh session at the payout step with an empty accumulator is stored
and the payout prompt is sent. -/
def startSession (m : Store) (c : ℤ) : Store × List BotOut :=
  (mapSet m c ⟨"payout", {}⟩, [.askPayout])

/-- One wizard-relevant inbound event addressed to a fixed chat:
a `/lead` command or a plain message with the given text. -/
inductive WizOp where
  | start
  | msg (text : String)

/-- Runs a sequence of events addressed to chat `c`, collecting the
sent messages. -/
def runOps (c : ℤ) : Store → List WizOp → Store × List BotOut
  | m, [] => (m, [])
  | m, op :: rest =>
    let r := match op with
      | .start => startSession m c
      | .msg t => handleMessage m c t
    let r2 := runOps c r.1 rest
    (r2.1, r.2 ++ r2.2)

/-- A stored wizard field that is present and numeric (`NaN` is the one
value the parse guard can never store). -/
def numField (o : Option JSNum) : Prop :=
  o ≠ none ∧ o ≠ some JSNum.nan

instance (o : Option JSNum) : Decidable (numField o) :=
  inferInstanceAs (Decidable (_ ∧ _))

/-- The step/data invariant of a live session: the step tag is one of
the four recognised steps and the accumulator holds exactly the fields
of the steps already completed, each present and numeric. -/
def SessionOK (s : Session) : Prop :=
  (s.step = "payout" ∧ s.data.payout = none ∧ s.data.approve = none ∧
    s.data.trash = none ∧ s.data.roi = none) ∨
  (s.step = "approve" ∧ numField s.data.payout ∧ s.data.approve = none ∧
    s.data.trash = none ∧ s.data.roi = none) ∨
  (s.step = "trash" ∧ numField s.data.payout ∧ numField s.data.approve ∧
    s.data.trash = none ∧ s.data.roi = none) ∨
  (s.step = "roi" ∧ numField s.data.payout ∧ numField s.data.approve ∧
    numField s.data.trash ∧ s.data.roi = none)

instance (s : Session) : Decidable (SessionOK s) :=
  inferInstanceAs (Decidable (_ ∨ _ ∨ _ ∨ _))

/-- The session stores reachable by the program: the empty store at
process start, closed under the `/lead` handler and the message
handler. -/
inductive Reach : Store → Prop where
  | init : Reach []
  | start (c : ℤ) {m : Store} : Reach m → Reach (startSession m c).1
  | step (c : ℤ) (t : String) {m : Store} : Reach m → Reach (handleMessage m c t).1

theorem jsAdd_val_val (a b : ℚ) : jsAdd (.val a) (.val b) = .val (a + b) := rfl

theorem jsMul_val_val (a b : ℚ) : jsMul (.val a) (.val b) = .val (a * b) := rfl

theorem jsDiv_val_val (a b : ℚ) (hb : b ≠ 0) :
    jsDiv (.val a) (.val b) = .val (a / b) := by
  simp [jsDiv, hb]

theorem jsToFixed4_val (q : ℚ) : jsToFixed4 (.val q) = .val (round4 q) := rfl

theorem one_add_div100_ne (t : ℚ) (h : 0 ≤ t) : (1 : ℚ) + t / 100 ≠ 0 := by
  have h2 : (0 : ℚ) ≤ t / 100 := div_nonneg h (by norm_num)
  intro hc
  linarith

/-- Evaluation of `calcCPL` on four present finite inputs whose two
divisors are nonzero. -/
theorem calcCPL_val (p a t r : ℚ) (hT : (1 : ℚ) + t / 100 ≠ 0)
    (hR : (1 : ℚ) + r / 100 ≠ 0) :
    calcCPL (some (.val p)) (some (.val a)) (some (.val t)) (some (.val r))
      = (.val (round4 (p * (a / 100) / (1 + t / 100))),
         .val (round4 (p * (a / 100) / (1 + t / 100) / (1 + r / 100)))) := by
  simp only [calcCPL, Option.getD_some]
  rw [jsDiv_val_val a 100 (by norm_num), jsDiv_val_val t 100 (by norm_num),
    jsDiv_val_val r 100 (by norm_num), jsMul_val_val, jsAdd_val_val,
    jsAdd_val_val, jsDiv_val_val _ _ hT, jsDiv_val_val _ _ hR,
    jsToFixed4_val, jsToFixed4_val]

/-- An absent `trash` behaves exactly as `trash = 0` (the destructuring
default), and likewise for `roi`. -/
theorem calcCPL_default_trash (payout approve roi : Option JSNum) :
    calcCPL payout approve none roi
      = calcCPL payout approve (some (.val 0)) roi := rfl

theorem calcCPL_default_roi (payout approve trash : Option JSNum) :
    calcCPL payout approve trash none
      = calcCPL payout approve trash (some (.val 0)) := rfl

/-- Claim C1: for every input (trash and roi defaulting to 0 when
absent, and, as the specification's quantification states, nonnegative
when present), `calcCPL` returns
`breakeven = (payout * approve/100) / (1 + trash/100)` and
`leadPrice = breakeven / (1 + roi/100)`, each rounded to 4 decimal
places (ties away from zero, the `toFixed` rounding). -/
theorem calcCPL_formula (payout approve : ℚ) (trash roi : Option ℚ)
    (ht : 0 ≤ trash.getD 0) (hr : 0 ≤ roi.getD 0) :
    calcCPL (some (.val payout)) (some (.val approve))
        (trash.map JSNum.val) (roi.map JSNum.val)
      = (.val (round4 (payout * (approve / 100) / (1 + trash.getD 0 / 100))),
         .val (round4 (payout * (approve / 100) / (1 + trash.getD 0 / 100) /
            (1 + roi.getD 0 / 100)))) := by
  have hT := one_add_div100_ne _ ht
  have hR := one_add_div100_ne _ hr
  cases trash <;> cases roi <;>
    simp only [Option.map_none, Option.map_some, Option.getD_some,
      Option.getD_none, calcCPL_default_trash, calcCPL_default_roi] at * <;>
    exact calcCPL_val _ _ _ _ hT hR

/-- Witness for C1 at the worked example input of the specification. -/
theorem calcCPL_formula_witness :
    (0 : ℚ) ≤ (some (30 : ℚ)).getD 0 ∧ (0 : ℚ) ≤ (some (50 : ℚ)).getD 0 ∧
    calcCPL (some (.val 20)) (some (.val 35))
        ((some (30 : ℚ)).map JSNum.val) ((some (50 : ℚ)).map JSNum.val)
      = (.val (round4 (20 * ((35 : ℚ) / 100) / (1 + (some (30 : ℚ)).getD 0 / 100))),
         .val (round4 (20 * ((35 : ℚ) / 100) / (1 + (some (30 : ℚ)).getD 0 / 100) /
            (1 + (some (50 : ℚ)).getD 0 / 100)))) :=
  ⟨by decide, by decide, calcCPL_formula 20 35 (some 30) (some 50) (by decide) (by decide)⟩

/-- Claim C5: on payout 20, approve 35, trash 30, roi 50 the function
returns breakeven 5.3846 and leadPrice 3.5897. -/
theorem calcCPL_example :
    calcCPL (some (.val 20)) (some (.val 35)) (some (.val 30)) (some (.val 50))
      = (.val 5.3846, .val 3.5897) := by decide

/-- Claim C6: with trash = 0 and roi = 0 the two outputs coincide for
every payout and approve. -/
theorem calcCPL_zero_trash_roi (payout approve : ℚ) :
    (calcCPL (some (.val payout)) (some (.val approve))
        (some (.val 0)) (some (.val 0))).2
      = (calcCPL (some (.val payout)) (some (.val approve))
          (some (.val 0)) (some (.val 0))).1 := by
  rw [calcCPL_val payout approve 0 0 (by norm_num) (by norm_num)]
  norm_num

/-- Claim C2: starting the wizard and answering "20", "35", "30", "50"
sends the four prompts and then a result with the same breakeven and
lead price as the one-shot `/calc 20 35 30 50`; the session store is
empty afterwards, so a further free-text message is a no-op; and the
same run written with comma or dot decimal separators is accepted and
gives the same result. -/
theorem wizard_matches_oneshot :
    (runOps 5 [] [.start, .msg "20", .msg "35", .msg "30", .msg "50"]).1 = [] ∧
    (runOps 5 [] [.start, .msg "20", .msg "35", .msg "30", .msg "50"]).2
      = [.askPayout, .askApprove, .askTrash, .askRoi,
         .wizardResult (.val 50) (.val 5.3846) (.val 3.5897)] ∧
    calcCommand "20 35 30 50"
      = [.calcResult (.val 50) (.val 5.3846) (.val 3.5897)] ∧
    handleMessage [] 5 "99" = ([], []) ∧
    (runOps 5 [] [.start, .msg "20,0", .msg "35.0", .msg "30,0", .msg "50.0"]).2
      = [.askPayout, .askApprove, .askTrash, .askRoi,
         .wizardResult (.val 50) (.val 5.3846) (.val 3.5897)] := by decide

theorem mapGet_mapSet_self (m : Store) (c : ℤ) (s : Session) :
    mapGet (mapSet m c s) c = some s := by
  induction m with
  | nil => simp [mapSet, mapGet]
  | cons p rest ih =>
    obtain ⟨c', s'⟩ := p
    by_cases h : c' = c
    · simp [mapSet, h, mapGet]
    · simp [mapSet, h, mapGet, ih]

theorem mapGet_mapSet_ne (m : Store) (c c' : ℤ) (s : Session) (h : c' ≠ c) :
    mapGet (mapSet m c s) c' = mapGet m c' := by
  induction m with
  | nil => simp [mapSet, mapGet, Ne.symm h]
  | cons p rest ih =>
    obtain ⟨c'', s''⟩ := p
    by_cases hc : c'' = c
    · subst hc
      simp [mapSet, mapGet, Ne.symm h]
    · simp only [mapSet, if_neg hc, mapGet]
      by_cases hc2 : c'' = c'
      · simp [hc2]
      · simp [hc2, ih]

theorem mapGet_mapSet_cases (m : Store) (c c' : ℤ) (s t : Session)
    (h : mapGet (mapSet m c s) c' = some t) :
    (c' = c ∧ t = s) ∨ mapGet m c' = some t := by
  by_cases hc : c' = c
  · subst hc
    rw [mapGet_mapSet_self] at h
    exact Or.inl ⟨rfl, (Option.some_injective _ h).symm⟩
  · rw [mapGet_mapSet_ne m c c' s hc] at h
    exact Or.inr h

theorem mapGet_mapDelete_self (m : Store) (c : ℤ) :
    mapGet (mapDelete m c) c = none := by
  induction m with
  | nil => simp [mapDelete, mapGet]
  | cons p rest ih =>
    obtain ⟨c', s'⟩ := p
    by_cases h : c' = c
    · simpa [mapDelete, h] using ih
    · simpa [mapDelete, mapGet, h] using ih

theorem mapGet_mapDelete_ne (m : Store) (c c' : ℤ) (h : c' ≠ c) :
    mapGet (mapDelete m c) c' = mapGet m c' := by
  induction m with
  | nil => simp [mapDelete, mapGet]
  | cons p rest ih =>
    obtain ⟨c'', s''⟩ := p
    by_cases hc : c'' = c
    · subst hc
      simpa [mapDelete, mapGet, Ne.symm h] using ih
    · by_cases hc2 : c'' = c'
      · simp [mapDelete, mapGet, hc, hc2, h]
      · simpa [mapDelete, mapGet, hc, hc2] using ih

theorem mapGet_mapDelete_cases (m : Store) (c c' : ℤ) (t : Session)
    (h : mapGet (mapDelete m c) c' = some t) : mapGet m c' = some t := by
  by_cases hc : c' = c
  · subst hc
    rw [mapGet_mapDelete_self] at h
    exact absurd h (by simp)
  · rwa [mapGet_mapDelete_ne m c c' hc] at h

/-- Claim C7: the `/lead` handler leaves the store holding, for the
message's chat, a fresh session at step `payout` with an empty
accumulator, whatever session (if any) was there before — last writer
wins — and sends the payout prompt. -/
theorem startSession_initializes (m : Store) (c : ℤ) :
    mapGet (startSession m c).1 c = some ⟨"payout", {}⟩ ∧
    (startSession m c).2 = [.askPayout] :=
  ⟨mapGet_mapSet_self m c _, rfl⟩

/-- Free text that is nonempty, not a command and not a menu button
reaches the wizard part of the message handler when a session exists. -/
theorem routeText_wizard (s : Session) (text : String) (h0 : text ≠ "")
    (h1 : startsWithSlash text = false) (h2 : text ∉ mainMenuLabels) :
    routeText (some s) text = wizardStep s text := by
  have g1 : ¬(text = "" ∨ startsWithSlash text = true) := by simp [h0, h1]
  simp only [mainMenuLabels, List.mem_cons, List.not_mem_nil, or_false,
    not_or] at h2
  obtain ⟨n1, n2, n3, n4⟩ := h2
  simp [routeText, g1, n1, n2, n3, n4]

/-- Claim C4: a wizard reply that parses to `NaN` is answered with the
resend-a-number message and leaves the store — hence the session's step,
its accumulated data, and its presence under the same chat id — exactly
as it was. -/
theorem submit_nonnumeric_unchanged (m : Store) (c : ℤ) (s : Session)
    (text : String) (hs : mapGet m c = some s) (h0 : text ≠ "")
    (h1 : startsWithSlash text = false) (h2 : text ∉ mainMenuLabels)
    (hn : jsStrToNumber (replaceFirstComma text) = JSNum.nan) :
    handleMessage m c text = (m, [.sendNumberPlease]) ∧
    mapGet (handleMessage m c text).1 c = some s := by
  have hr : routeText (some s) text = wizardStep s text :=
    routeText_wizard s text h0 h1 h2
  have hw : wizardStep s text = (.keep, [.sendNumberPlease]) := by
    simp [wizardStep, hn]
  refine ⟨?_, ?_⟩ <;> simp [handleMessage, hs, hr, hw, applyAct]

/-- Witness for C4: an active mid-wizard session and the reply "abc". -/
theorem submit_nonnumeric_unchanged_witness :
    mapGet [(7, Session.mk "trash"
        (SessData.mk (some (JSNum.val 1)) (some (JSNum.val 2)) none none))] 7
      = some (Session.mk "trash"
          (SessData.mk (some (JSNum.val 1)) (some (JSNum.val 2)) none none)) ∧
    jsStrToNumber (replaceFirstComma "abc") = JSNum.nan ∧
    handleMessage [(7, Session.mk "trash"
        (SessData.mk (some (JSNum.val 1)) (some (JSNum.val 2)) none none))] 7 "abc"
      = ([(7, Session.mk "trash"
            (SessData.mk (some (JSNum.val 1)) (some (JSNum.val 2)) none none))],
         [.sendNumberPlease]) := by
  refine ⟨by decide, by decide, ?_⟩
  exact (submit_nonnumeric_unchanged
    [(7, Session.mk "trash"
        (SessData.mk (some (JSNum.val 1)) (some (JSNum.val 2)) none none))] 7
    (Session.mk "trash"
      (SessData.mk (some (JSNum.val 1)) (some (JSNum.val 2)) none none)) "abc"
    (by decide) (by decide) (by decide) (by decide) (by decide)).1

/-- Counterexample to claim C3 as stated: the reply "Infinity" parses to
the non-finite value `Infinity`, yet the wizard does not reject it — the
value is stored and the step advances from `payout` to `approve`. -/
theorem infinity_not_rejected :
    jsStrToNumber (replaceFirstComma "Infinity") = JSNum.inf ∧
    handleMessage [(5, Session.mk "payout" (SessData.mk none none none none))]
        5 "Infinity"
      = ([(5, Session.mk "approve"
            (SessData.mk (some JSNum.inf) none none none))], [.askApprove]) := by
  decide

/-- Claim C3 as amended: a wizard reply (under the routing
preconditions) is rejected — answered with the resend-a-number message,
store untouched — if and only if it parses to `NaN`, and a `/calc`
argument string is answered with the all-arguments-must-be-numbers
message if and only if it has at least 3 tokens and one of the four
destructured values is `NaN`; values that parse to non-finite numbers
such as `Infinity` are accepted. -/
theorem reject_iff_parse_nan (m : Store) (c : ℤ) (s : Session)
    (text argStr : String) (hs : mapGet m c = some s) (h0 : text ≠ "")
    (h1 : startsWithSlash text = false) (h2 : text ∉ mainMenuLabels) :
    ((handleMessage m c text).2 = [.sendNumberPlease]
      ↔ jsStrToNumber (replaceFirstComma text) = JSNum.nan) ∧
    (jsStrToNumber (replaceFirstComma text) = JSNum.nan →
      handleMessage m c text = (m, [.sendNumberPlease])) ∧
    (calcCommand argStr = [.allMustBeNumbers]
      ↔ ¬((jsSplitTokens (jsTrim argStr)).map jsStrToNumber).length < 3 ∧
        ((((jsSplitTokens (jsTrim argStr)).map jsStrToNumber).get? 0).getD JSNum.nan = JSNum.nan ∨
         (((jsSplitTokens (jsTrim argStr)).map jsStrToNumber).get? 1).getD JSNum.nan = JSNum.nan ∨
         (((jsSplitTokens (jsTrim argStr)).map jsStrToNumber).get? 2).getD JSNum.nan = JSNum.nan ∨
         (((jsSplitTokens (jsTrim argStr)).map jsStrToNumber).get? 3).getD (JSNum.val 0) = JSNum.nan)) := by
  have hr : routeText (some s) text = wizardStep s text :=
    routeText_wizard s text h0 h1 h2
  refine ⟨?_, ?_, ?_⟩
  · have h2out : (handleMessage m c text).2 = (wizardStep s text).2 := by
      simp [handleMessage, hs, hr]
    rw [h2out]
    by_cases hn : jsStrToNumber (replaceFirstComma text) = JSNum.nan
    · simp [wizardStep, hn]
    · simp only [wizardStep]
      rw [if_neg hn]
      split_ifs <;> simp [hn]
  · intro hn
    have hw : wizardStep s text = (.keep, [.sendNumberPlease]) := by
      simp [wizardStep, hn]
    simp [handleMessage, hs, hr, hw, applyAct]
  · by_cases h3 : ((jsSplitTokens (jsTrim argStr)).map jsStrToNumber).length < 3
    · apply iff_of_false
      · simp only [calcCommand]
        rw [if_pos h3]
        simp
      · intro hrhs
        exact hrhs.1 h3
    · by_cases hnan :
        (((jsSplitTokens (jsTrim argStr)).map jsStrToNumber).get? 0).getD JSNum.nan = JSNum.nan ∨
        (((jsSplitTokens (jsTrim argStr)).map jsStrToNumber).get? 1).getD JSNum.nan = JSNum.nan ∨
        (((jsSplitTokens (jsTrim argStr)).map jsStrToNumber).get? 2).getD JSNum.nan = JSNum.nan ∨
        (((jsSplitTokens (jsTrim argStr)).map jsStrToNumber).get? 3).getD (JSNum.val 0) = JSNum.nan
      · apply iff_of_true
        · simp only [calcCommand]
          rw [if_neg h3, if_pos hnan]
        · exact ⟨h3, hnan⟩
      · apply iff_of_false
        · simp only [calcCommand]
          rw [if_neg h3, if_neg hnan]
          simp
        · intro hrhs
          exact hnan hrhs.2

/-- Witness for the amended C3: the reply "abc" is rejected (it parses
to `NaN`), and the `/calc` argument string "20 x 30" has a `NaN` token
and is rejected. -/
theorem reject_iff_parse_nan_witness :
    mapGet [(3, Session.mk "payout" (SessData.mk none none none none))] 3
      = some (Session.mk "payout" (SessData.mk none none none none)) ∧
    ((handleMessage [(3, Session.mk "payout" (SessData.mk none none none none))]
        3 "abc").2 = [.sendNumberPlease]
      ↔ jsStrToNumber (replaceFirstComma "abc") = JSNum.nan) ∧
    (calcCommand "20 x 30" = [.allMustBeNumbers]
      ↔ ¬((jsSplitTokens (jsTrim "20 x 30")).map jsStrToNumber).length < 3 ∧
        ((((jsSplitTokens (jsTrim "20 x 30")).map jsStrToNumber).get? 0).getD JSNum.nan = JSNum.nan ∨
         (((jsSplitTokens (jsTrim "20 x 30")).map jsStrToNumber).get? 1).getD JSNum.nan = JSNum.nan ∨
         (((jsSplitTokens (jsTrim "20 x 30")).map jsStrToNumber).get? 2).getD JSNum.nan = JSNum.nan ∨
         (((jsSplitTokens (jsTrim "20 x 30")).map jsStrToNumber).get? 3).getD (JSNum.val 0) = JSNum.nan)) := by
  refine ⟨by decide, ?_, ?_⟩
  · exact (reject_iff_parse_nan
      [(3, Session.mk "payout" (SessData.mk none none none none))] 3
      (Session.mk "payout" (SessData.mk none none none none)) "abc" "20 x 30"
      (by decide) (by decide) (by decide) (by decide)).1
  · exact (reject_iff_parse_nan
      [(3, Session.mk "payout" (SessData.mk none none none none))] 3
      (Session.mk "payout" (SessData.mk none none none none)) "abc" "20 x 30"
      (by decide) (by decide) (by decide) (by decide)).2.2

/-- Claim C10: while a session is active, a message that starts with a
slash or exactly equals a main-menu button label never reaches the
wizard code: the store — hence the session's step and data — is exactly
unchanged, and the only reply, if any, is a menu reply. -/
theorem commands_and_menu_skip_wizard (m : Store) (c : ℤ) (s : Session)
    (text : String) (_hs : mapGet m c = some s)
    (h : startsWithSlash text = true ∨ text ∈ mainMenuLabels) :
    (handleMessage m c text).1 = m ∧
    ((handleMessage m c text).2 = [] ∨
     (handleMessage m c text).2 = [.menuCalcHelp] ∨
     (handleMessage m c text).2 = [.menuChannel] ∨
     (handleMessage m c text).2 = [.menuManager]) := by
  rcases h with h | h
  · have hr : routeText (mapGet m c) text = (.keep, []) := by
      simp [routeText, h]
    rw [handleMessage, hr]
    simp [applyAct]
  · simp only [mainMenuLabels, List.mem_cons, List.not_mem_nil, or_false] at h
    rcases h with h | h | h | h <;> subst h <;>
      · rw [handleMessage]
        simp only [routeText]
        rw [if_neg (by decide)]
        simp [applyAct]

/-- Witness for C10: an active session survives the command "/lead"
being routed away from the wizard (text starting with a slash). -/
theorem commands_and_menu_skip_wizard_witness :
    mapGet [(4, Session.mk "roi" (SessData.mk (some (JSNum.val 1))
        (some (JSNum.val 2)) (some (JSNum.val 3)) none))] 4
      = some (Session.mk "roi" (SessData.mk (some (JSNum.val 1))
          (some (JSNum.val 2)) (some (JSNum.val 3)) none)) ∧
    (handleMessage [(4, Session.mk "roi" (SessData.mk (some (JSNum.val 1))
        (some (JSNum.val 2)) (some (JSNum.val 3)) none))] 4 "/lead").1
      = [(4, Session.mk "roi" (SessData.mk (some (JSNum.val 1))
          (some (JSNum.val 2)) (some (JSNum.val 3)) none))] := by
  refine ⟨by decide, ?_⟩
  exact (commands_and_menu_skip_wizard
    [(4, Session.mk "roi" (SessData.mk (some (JSNum.val 1))
        (some (JSNum.val 2)) (some (JSNum.val 3)) none))] 4
    (Session.mk "roi" (SessData.mk (some (JSNum.val 1))
      (some (JSNum.val 2)) (some (JSNum.val 3)) none)) "/lead"
    (by decide) (Or.inl (by decide))).1

/-- The message handler never touches entries of other chats. -/
theorem handleMessage_frame (m : Store) (c c' : ℤ) (t : String) (h : c' ≠ c) :
    mapGet (handleMessage m c t).1 c' = mapGet m c' := by
  simp only [handleMessage]
  rcases hact : (routeText (mapGet m c) t).1 with _ | s2 | _
  · simp [hact, applyAct]
  · simp [hact, applyAct, mapGet_mapSet_ne m c c' s2 h]
  · simp [hact, applyAct, mapGet_mapDelete_ne m c c' h]

/-- What the message handler sends, and the session it leaves for the
message's chat, depend only on that chat's session. -/
theorem handleMessage_congr (m m' : Store) (c : ℤ) (t : String)
    (h : mapGet m c = mapGet m' c) :
    (handleMessage m c t).2 = (handleMessage m' c t).2 ∧
    mapGet (handleMessage m c t).1 c = mapGet (handleMessage m' c t).1 c := by
  have e1 : (handleMessage m c t).2 = (handleMessage m' c t).2 := by
    simp only [handleMessage, h]
  refine ⟨e1, ?_⟩
  simp only [handleMessage, h]
  rcases hact : (routeText (mapGet m' c) t).1 with _ | s2 | _
  · simp [hact, applyAct, h]
  · simp [hact, applyAct, mapGet_mapSet_self]
  · simp [hact, applyAct, mapGet_mapDelete_self]

/-- Claim C8: for distinct chats, a sequence of `/lead` and wizard
messages addressed to `c1` never changes the session of `c2`, and both
the messages sent and the session left for `c1` are the same over any
two stores that agree on the session of `c1` — in particular they do
not depend on the session contents of `c2`. -/
theorem sessions_isolated (ops : List WizOp) : ∀ (m m' : Store) (c1 c2 : ℤ),
    c1 ≠ c2 → mapGet m c1 = mapGet m' c1 →
    mapGet (runOps c1 m ops).1 c2 = mapGet m c2 ∧
    (runOps c1 m ops).2 = (runOps c1 m' ops).2 ∧
    mapGet (runOps c1 m ops).1 c1 = mapGet (runOps c1 m' ops).1 c1 := by
  induction ops with
  | nil => exact fun m m' c1 c2 hne h => ⟨rfl, rfl, h⟩
  | cons op rest ih =>
    intro m m' c1 c2 hne h
    cases op with
    | start =>
      have hstart : mapGet (startSession m c1).1 c1
          = mapGet (startSession m' c1).1 c1 := by
        simp [startSession, mapGet_mapSet_self]
      obtain ⟨ih1, ih2, ih3⟩ :=
        ih (startSession m c1).1 (startSession m' c1).1 c1 c2 hne hstart
      refine ⟨?_, ?_, ?_⟩
      · simp only [runOps]
        rw [ih1]
        simp [startSession, mapGet_mapSet_ne m c1 c2 _ (Ne.symm hne)]
      · simp only [runOps]
        rw [ih2]
        rfl
      · simp only [runOps]
        exact ih3
    | msg t =>
      have hcongr := handleMessage_congr m m' c1 t h
      obtain ⟨ih1, ih2, ih3⟩ :=
        ih (handleMessage m c1 t).1 (handleMessage m' c1 t).1 c1 c2 hne hcongr.2
      refine ⟨?_, ?_, ?_⟩
      · simp only [runOps]
        rw [ih1, handleMessage_frame m c1 c2 t (Ne.symm hne)]
      · simp only [runOps]
        rw [ih2, hcongr.1]
      · simp only [runOps]
        exact ih3

/-- Witness for C8: chat 1 runs the wizard start and one answer while
chat 2 holds a mid-wizard session in one store and nothing in the
other; chat 2's session is untouched and chat 1's outcome is
identical. -/
theorem sessions_isolated_witness :
    (1 : ℤ) ≠ 2 ∧
    mapGet [] 1 = mapGet [(2, Session.mk "approve"
        (SessData.mk (some (JSNum.val 9)) none none none))] 1 ∧
    (mapGet (runOps 1 [] [.start, .msg "20"]).1 2 = mapGet [] 2 ∧
     (runOps 1 [] [.start, .msg "20"]).2
       = (runOps 1 [(2, Session.mk "approve"
            (SessData.mk (some (JSNum.val 9)) none none none))]
            [.start, .msg "20"]).2 ∧
     mapGet (runOps 1 [] [.start, .msg "20"]).1 1
       = mapGet (runOps 1 [(2, Session.mk "approve"
            (SessData.mk (some (JSNum.val 9)) none none none))]
            [.start, .msg "20"]).1 1) := by
  refine ⟨by decide, by decide, ?_⟩
  exact sessions_isolated [.start, .msg "20"] []
    [(2, Session.mk "approve" (SessData.mk (some (JSNum.val 9)) none none none))]
    1 2 (by decide) (by decide)

/-- A wizard step that writes a session back writes one that again
satisfies the step/data invariant. -/
theorem wizardStep_set_ok (s s' : Session) (t : String) (hOK : SessionOK s)
    (hw : (wizardStep s t).1 = .set s') : SessionOK s' := by
  simp only [wizardStep] at hw
  split_ifs at hw with hn h1 h2 h3 h4
  · have hx : s' = Session.mk "approve"
        (SessData.mk (some (jsStrToNumber (replaceFirstComma t)))
          s.data.approve s.data.trash s.data.roi) := by
      simpa using hw.symm
    subst hx
    rcases hOK with ⟨g1, d1, d2, d3, d4⟩ | ⟨g1, -⟩ | ⟨g1, -⟩ | ⟨g1, -⟩
    · simp [SessionOK, numField, hn, d2, d3, d4]
    · rw [g1] at h1; exact absurd h1 (by decide)
    · rw [g1] at h1; exact absurd h1 (by decide)
    · rw [g1] at h1; exact absurd h1 (by decide)
  · have hx : s' = Session.mk "trash"
        (SessData.mk s.data.payout
          (some (jsStrToNumber (replaceFirstComma t))) s.data.trash s.data.roi) := by
      simpa using hw.symm
    subst hx
    rcases hOK with ⟨g1, -⟩ | ⟨g1, d1, d2, d3, d4⟩ | ⟨g1, -⟩ | ⟨g1, -⟩
    · exact absurd g1 h1
    · obtain ⟨d1a, d1b⟩ := d1
      simp [SessionOK, numField, hn, d1a, d1b, d3, d4]
    · rw [g1] at h2; exact absurd h2 (by decide)
    · rw [g1] at h2; exact absurd h2 (by decide)
  · have hx : s' = Session.mk "roi"
        (SessData.mk s.data.payout s.data.approve
          (some (jsStrToNumber (replaceFirstComma t))) s.data.roi) := by
      simpa using hw.symm
    subst hx
    rcases hOK with ⟨g1, -⟩ | ⟨g1, -⟩ | ⟨g1, d1, d2, d3, d4⟩ | ⟨g1, -⟩
    · exact absurd g1 h1
    · exact absurd g1 h2
    · obtain ⟨d1a, d1b⟩ := d1
      obtain ⟨d2a, d2b⟩ := d2
      simp [SessionOK, numField, hn, d1a, d1b, d2a, d2b, d4]
    · rw [g1] at h3; exact absurd h3 (by decide)

/-- The router writes a session back only out of a wizard step, and the
written session again satisfies the invariant. -/
theorem routeText_set_ok (sopt : Option Session) (t : String) (s' : Session)
    (hOK : ∀ s0, sopt = some s0 → SessionOK s0)
    (hact : (routeText sopt t).1 = .set s') : SessionOK s' := by
  simp only [routeText] at hact
  split_ifs at hact
  cases sopt with
  | none => exact absurd hact (by simp)
  | some s0 => exact wizardStep_set_ok s0 s' t (hOK s0 rfl) hact

/-- One message keeps every stored session inside the invariant. -/
theorem handleMessage_preserves (m : Store) (c c' : ℤ) (t : String)
    (s' : Session) (hOK : ∀ c0 s0, mapGet m c0 = some s0 → SessionOK s0)
    (hget : mapGet (handleMessage m c t).1 c' = some s') : SessionOK s' := by
  simp only [handleMessage] at hget
  rcases hact : (routeText (mapGet m c) t).1 with _ | s2 | _
  · rw [hact] at hget
    exact hOK _ _ (by simpa [applyAct] using hget)
  · rw [hact] at hget
    simp only [applyAct] at hget
    rcases mapGet_mapSet_cases _ _ _ _ _ hget with ⟨-, rfl⟩ | hold
    · exact routeText_set_ok (mapGet m c) t _ (fun s0 h0 => hOK c s0 h0) hact
    · exact hOK _ _ hold
  · rw [hact] at hget
    exact hOK _ _ (mapGet_mapDelete_cases _ _ _ _ (by simpa [applyAct] using hget))

/-- Every session stored in a reachable store satisfies the step/data
invariant. -/
theorem reach_all_ok {m : Store} (hm : Reach m) :
    ∀ c s, mapGet m c = some s → SessionOK s := by
  induction hm with
  | init => intro c s h; simp [mapGet] at h
  | start c0 hm0 ih =>
    intro c s h
    simp only [startSession] at h
    rcases mapGet_mapSet_cases _ _ _ _ _ h with ⟨-, rfl⟩ | hold
    · exact Or.inl ⟨rfl, rfl, rfl, rfl, rfl⟩
    · exact ih _ _ hold
  | step c0 t0 hm0 ih =>
    exact fun c s h => handleMessage_preserves _ c0 c t0 s ih h

/-- A wizard step on a session satisfying the invariant never reaches
the defensive default branch. -/
theorem wizardStep_no_stateError (s : Session) (t : String) (hOK : SessionOK s) :
    BotOut.stateError ∉ (wizardStep s t).2 := by
  simp only [wizardStep]
  split_ifs with hn h1 h2 h3 h4
  · simp
  · simp
  · simp
  · simp
  · simp
  · rcases hOK with ⟨g1, -⟩ | ⟨g1, -⟩ | ⟨g1, -⟩ | ⟨g1, -⟩
    · exact absurd g1 h1
    · exact absurd g1 h2
    · exact absurd g1 h3
    · exact absurd g1 h4

/-- The router never emits the invalid-state message when every stored
session satisfies the invariant. -/
theorem routeText_no_stateError (sopt : Option Session) (t : String)
    (hOK : ∀ s0, sopt = some s0 → SessionOK s0) :
    BotOut.stateError ∉ (routeText sopt t).2 := by
  simp only [routeText]
  split_ifs
  · simp
  · simp
  · simp
  · simp
  · cases sopt with
    | none => simp
    | some s0 => exact wizardStep_no_stateError s0 t (hOK s0 rfl)

/-- Claim C9: in every store reachable by the program, every stored
session is at one of the four recognised steps with exactly the fields
of the completed steps present and numeric — in particular a session at
step `roi` has payout, approve and trash all present, so the final
`calcCPL` call receives all four fields — and no message can make the
handler emit the defensive invalid-state response. -/
theorem reachable_sessions_ok (m : Store) (c c2 : ℤ) (s : Session) (t : String)
    (hm : Reach m) (hc : mapGet m c = some s) :
    SessionOK s ∧
    (s.step = "roi" → s.data.payout ≠ none ∧ s.data.approve ≠ none ∧
      s.data.trash ≠ none) ∧
    BotOut.stateError ∉ (handleMessage m c2 t).2 := by
  have hall := reach_all_ok hm
  have hOK := hall c s hc
  refine ⟨hOK, ?_, ?_⟩
  · intro hstep
    rcases hOK with ⟨g1, -⟩ | ⟨g1, -⟩ | ⟨g1, -⟩ | ⟨g1, d1, d2, d3, d4⟩
    · rw [hstep] at g1; exact absurd g1 (by decide)
    · rw [hstep] at g1; exact absurd g1 (by decide)
    · rw [hstep] at g1; exact absurd g1 (by decide)
    · exact ⟨d1.1, d2.1, d3.1⟩
  · have e2 : (handleMessage m c2 t).2 = (routeText (mapGet m c2) t).2 := by
      simp [handleMessage]
    rw [e2]
    exact routeText_no_stateError (mapGet m c2) t (fun s0 h0 => hall c2 s0 h0)

/-- Witness for C9: the store reached by `/lead` then the answer "20"
holds a session at step `approve` with only the payout stored, and a
further message cannot produce the invalid-state response. -/
theorem reachable_sessions_ok_witness :
    mapGet (handleMessage (startSession [] 5).1 5 "20").1 5
      = some (Session.mk "approve" (SessData.mk (some (JSNum.val 20)) none none none)) ∧
    (SessionOK (Session.mk "approve" (SessData.mk (some (JSNum.val 20)) none none none)) ∧
     ((Session.mk "approve" (SessData.mk (some (JSNum.val 20)) none none none)).step = "roi" →
       (Session.mk "approve" (SessData.mk (some (JSNum.val 20)) none none none)).data.payout ≠ none ∧
       (Session.mk "approve" (SessData.mk (some (JSNum.val 20)) none none none)).data.approve ≠ none ∧
       (Session.mk "approve" (SessData.mk (some (JSNum.val 20)) none none none)).data.trash ≠ none) ∧
     BotOut.stateError ∉
       (handleMessage (handleMessage (startSession [] 5).1 5 "20").1 5 "abc").2) := by
  refine ⟨by decide, ?_⟩
  exact reachable_sessions_ok (handleMessage (startSession [] 5).1 5 "20").1 5 5
    (Session.mk "approve" (SessData.mk (some (JSNum.val 20)) none none none)) "abc"
    (Reach.step 5 "20" (Reach.start 5 Reach.init)) (by decide)
